import Mathlib

/-!
Verification of the data-preparation pipeline of the expected-goals
notebook (`how-to-expected-goals.ipynb`).

The notebook is a linear pandas pipeline over a table of shot records.
We embed one row as a `ShotRecord` holding the three action slots
(`action`, `action1`, `action2`).  Coordinates are embedded as exact
rationals `ℚ`; the Euclidean distance feature (computed by
`scipy.spatial.distance.euclidean`) is embedded over `ℝ` with
`Real.sqrt`.  Identifier columns (`game_id`, `team_id`, `player_id`,
`period`, `seconds`, `type_id`, `type_name`) are never read or written
by the pipeline, so they are omitted from the embedding.
-/

namespace Shots

/-- One action slot of a shot record: the fields of the fixed schema that
the pipeline reads or writes (`body_part_id`, `result`, and the four
pitch coordinates). -/
structure ShotAction where
  body_part_id : ℤ
  result : ℤ
  start_x : ℚ
  start_y : ℚ
  end_x : ℚ
  end_y : ℚ
  deriving DecidableEq, Repr

/-- One row of the shots table: the shot itself (`action`) and the two
preceding actions (`action1`, `action2`). -/
structure ShotRecord where
  action : ShotAction
  action1 : ShotAction
  action2 : ShotAction
  deriving DecidableEq, Repr

/-- Cell 13, body of the loop for one action slot: the x coordinates of
both sides are divided by 105 and the y coordinates of both sides by
68. -/
def normalizeAction (a : ShotAction) : ShotAction :=
  { a with
    start_x := a.start_x / 105
    start_y := a.start_y / 68
    end_x := a.end_x / 105
    end_y := a.end_y / 68 }

/-- Cell 13: normalize the location features of all three action slots. -/
def normalize (r : ShotRecord) : ShotRecord :=
  { action := normalizeAction r.action
    action1 := normalizeAction r.action1
    action2 := normalizeAction r.action2 }

/-- Cell 13 applied to the whole dataframe (row-wise: the loop assigns
whole columns, which acts independently on each row). -/
def normalizeDF (df : List ShotRecord) : List ShotRecord :=
  df.map normalize

/-- Cell 13 as executed by the notebook: the loop contains only the two
division assignments, so its observable output is the transformed table
and an empty list of emitted warnings (no range check, no logging
statement appears in the cell). -/
def normalizeRun (r : ShotRecord) : ShotRecord × List String :=
  (normalize r, [])

/-- Cell 17: normalized location of the center of the opposing goal. -/
noncomputable def goal : ℝ × ℝ := (1, 1/2)

/-- The library function `scipy.spatial.distance.euclidean` on two
points of the plane: the 2-norm of the difference. -/
noncomputable def euclidean (u v : ℝ × ℝ) : ℝ :=
  Real.sqrt ((u.1 - v.1) ^ 2 + (u.2 - v.2) ^ 2)

/-- Cell 18, body of the loop for one action slot: the Euclidean distance
from the start location of the action to `goal`. -/
noncomputable def startDistance (a : ShotAction) : ℝ :=
  euclidean ((a.start_x : ℝ), (a.start_y : ℝ)) goal

/-- Cell 19, first assignment: `is_foot = (body_part_id == 0)`. -/
def is_foot (a : ShotAction) : Bool :=
  a.body_part_id == 0

/-- Cell 19, second assignment: `is_head = (body_part_id == 1)`. -/
def is_head (a : ShotAction) : Bool :=
  a.body_part_id == 1

/-- Cell 19, third assignment: `is_other = (body_part_id == 2)`. -/
def is_other (a : ShotAction) : Bool :=
  a.body_part_id == 2

/-- The columns cells 18 and 19 add for one action slot. -/
structure SlotFeatures where
  start_distance : ℝ
  foot : Bool
  head : Bool
  other : Bool

/-- A row after cells 18 and 19: the loaded columns (`base`) plus the
new distance and indicator columns for each slot.  Pandas column
assignment with a fresh key only adds columns, so `base` carries the
row as it was before these cells. -/
structure AugRecord where
  base : ShotRecord
  actionF : SlotFeatures
  action1F : SlotFeatures
  action2F : SlotFeatures

/-- Cells 18 and 19 for one action slot. -/
noncomputable def slotFeatures (a : ShotAction) : SlotFeatures :=
  { start_distance := startDistance a
    foot := is_foot a
    head := is_head a
    other := is_other a }

/-- Cells 18 and 19: augment a (normalized) row with the three distance
columns and the nine indicator columns. -/
noncomputable def addFeatures (r : ShotRecord) : AugRecord :=
  { base := r
    actionF := slotFeatures r.action
    action1F := slotFeatures r.action1
    action2F := slotFeatures r.action2 }

/-- Cell 22/23: the selected feature columns of one row, in the order of
`columns_features` (`action_start_x`, `action_start_y`, `action_is_foot`,
`action_is_head`, `action_start_distance`, `action1_start_distance`,
`action2_start_distance`). -/
structure FeatureVector where
  action_start_x : ℚ
  action_start_y : ℚ
  action_is_foot : Bool
  action_is_head : Bool
  action_start_distance : ℝ
  action1_start_distance : ℝ
  action2_start_distance : ℝ

/-- Cell 23, `X = df_dataset[columns_features]` restricted to one row:
project the selected columns out of the augmented row. -/
def selectFeatures (ar : AugRecord) : FeatureVector :=
  { action_start_x := ar.base.action.start_x
    action_start_y := ar.base.action.start_y
    action_is_foot := ar.actionF.foot
    action_is_head := ar.actionF.head
    action_start_distance := ar.actionF.start_distance
    action1_start_distance := ar.action1F.start_distance
    action2_start_distance := ar.action2F.start_distance }

/-- Cell 23, `y = df_dataset[column_target]` restricted to one row:
the `action_result` column of the shot. -/
def selectLabel (r : ShotRecord) : ℤ :=
  r.action.result

/-- The feature matrix the pipeline feeds to the splitter: load, cell 13,
cells 18/19, cell 23. -/
noncomputable def pipelineX (df : List ShotRecord) : List FeatureVector :=
  ((normalizeDF df).map addFeatures).map selectFeatures

/-- The label vector the pipeline feeds to the splitter (the `result`
column is untouched by cell 13, but `y` is read from the dataframe after
it ran). -/
def pipelineY (df : List ShotRecord) : List ℤ :=
  (normalizeDF df).map selectLabel

/-- Cell 33: `y_total = y_train.count()`. -/
def y_total (y_train : List ℤ) : ℕ :=
  y_train.length

/-- Cell 33: `y_positive = y_train.sum()`. -/
def y_positive (y_train : List ℤ) : ℤ :=
  y_train.sum

/-- Cell 36: `auc_pr_baseline = y_positive / y_total` (true division). -/
def auc_pr_baseline (y_train : List ℤ) : ℚ :=
  (y_positive y_train : ℚ) / (y_total y_train : ℚ)

/-- Modelled from the spec: the test-partition size of the dataset
splitter (`train_test_split` of cell 25 is library code absent from the
repository).  Per §4.4 the split takes `|test| ≈ round(N × test_size)`;
the library rounds the test share up, so `⌈test_size · N⌉` rows go to the
test partition. -/
def testSize (n : ℕ) (test_size : ℚ) : ℕ :=
  ⌈test_size * n⌉₊

/-- Modelled from the spec: select the rows of `rows` at the positions
listed in `idx` (row-wise selection of a uniformly shuffled index
order). -/
def selectRows (rows : List α) (idx : List ℕ) : List α :=
  idx.filterMap (fun i => rows[i]?)

/-- Modelled from the spec: `train_test_split` (cell 25), parameterized
by the shuffled index order `idx` (a permutation of `0..N-1`, drawn
uniformly at random by the library, unseeded).  The first
`testSize N test_size` shuffled positions form the test partition and
the remaining positions the train partition; the same index order is
applied to `X` and to `y`. -/
def trainTestSplit (X : List α) (y : List β) (idx : List ℕ)
    (test_size : ℚ) : (List α × List α) × (List β × List β) :=
  let nTest := testSize X.length test_size
  let testIdx := idx.take nTest
  let trainIdx := idx.drop nTest
  ((selectRows X trainIdx, selectRows X testIdx),
   (selectRows y trainIdx, selectRows y testIdx))

/-- The raw-coordinate invariant of the schema for one action slot:
x coordinates in `[0, 105]`, y coordinates in `[0, 68]`. -/
def rawInBounds (a : ShotAction) : Prop :=
  0 ≤ a.start_x ∧ a.start_x ≤ 105 ∧ 0 ≤ a.start_y ∧ a.start_y ≤ 68 ∧
  0 ≤ a.end_x ∧ a.end_x ≤ 105 ∧ 0 ≤ a.end_y ∧ a.end_y ≤ 68

instance (a : ShotAction) : Decidable (rawInBounds a) := by
  unfold rawInBounds; infer_instance

/-- All four coordinates of one action slot lie in the unit interval. -/
def normInBounds (a : ShotAction) : Prop :=
  0 ≤ a.start_x ∧ a.start_x ≤ 1 ∧ 0 ≤ a.start_y ∧ a.start_y ≤ 1 ∧
  0 ≤ a.end_x ∧ a.end_x ≤ 1 ∧ 0 ≤ a.end_y ∧ a.end_y ≤ 1

instance (a : ShotAction) : Decidable (normInBounds a) := by
  unfold normInBounds; infer_instance

/-- Two rows agree on every loaded column except possibly the `end_x` /
`end_y` coordinates of the three slots. -/
def agreeExceptEnds (r r' : ShotRecord) : Prop :=
  (r.action.body_part_id = r'.action.body_part_id ∧
   r.action.result = r'.action.result ∧
   r.action.start_x = r'.action.start_x ∧
   r.action.start_y = r'.action.start_y) ∧
  (r.action1.body_part_id = r'.action1.body_part_id ∧
   r.action1.result = r'.action1.result ∧
   r.action1.start_x = r'.action1.start_x ∧
   r.action1.start_y = r'.action1.start_y) ∧
  (r.action2.body_part_id = r'.action2.body_part_id ∧
   r.action2.result = r'.action2.result ∧
   r.action2.start_x = r'.action2.start_x ∧
   r.action2.start_y = r'.action2.start_y)

instance (r r' : ShotRecord) : Decidable (agreeExceptEnds r r') := by
  unfold agreeExceptEnds; infer_instance

/-- Replace the body-part code of the shot, leaving every other column
unchanged. -/
def setBodyPart (r : ShotRecord) (c : ℤ) : ShotRecord :=
  { r with action := { r.action with body_part_id := c } }

/-- A concrete in-bounds row: a footed shot from midfield, preceded by a
headed action and an other-body-part action. -/
def sampleRecord : ShotRecord :=
  { action := ⟨0, 1, 52, 34, 100, 60⟩
    action1 := ⟨1, 0, 30, 20, 40, 25⟩
    action2 := ⟨2, 0, 10, 5, 15, 8⟩ }

/-- The same row as `sampleRecord` except for the `end_x` / `end_y`
coordinates of each slot. -/
def sampleRecordEnds : ShotRecord :=
  { action := ⟨0, 1, 52, 34, 7, 3⟩
    action1 := ⟨1, 0, 30, 20, 0, 0⟩
    action2 := ⟨2, 0, 10, 5, 99, 42⟩ }

/-- A concrete row whose shot start location lies outside the documented
pitch bounds (`start_x = 200 > 105`). -/
def oobRecord : ShotRecord :=
  { action := ⟨0, 0, 200, 34, 50, 20⟩
    action1 := ⟨0, 0, 30, 20, 40, 25⟩
    action2 := ⟨0, 0, 10, 5, 15, 8⟩ }

/-- A concrete row whose shot was taken with an other body part
(`body_part_id = 2`). -/
def bp2Record : ShotRecord :=
  { action := ⟨2, 1, 50, 30, 80, 40⟩
    action1 := ⟨0, 0, 30, 20, 40, 25⟩
    action2 := ⟨1, 0, 10, 5, 15, 8⟩ }

/-- A concrete training-label vector matching the end-to-end scenario:
1000 shots of which 100 are goals (goal rate 0.10). -/
def trainScenario : List ℤ :=
  List.replicate 100 1 ++ List.replicate 900 0

/-- A small concrete 0/1 training-label vector. -/
def smallTrain : List ℤ :=
  [1, 0, 0, 0]

/-- Concrete splitter input: 100 rows identified by their position. -/
def rows100 : List ℕ :=
  List.range 100

lemma normalizeAction_bounds (a : ShotAction) (h : rawInBounds a) :
    normInBounds (normalizeAction a) := by
  obtain ⟨h1, h2, h3, h4, h5, h6, h7, h8⟩ := h
  simp only [normInBounds, normalizeAction]
  exact ⟨div_nonneg h1 (by norm_num), (div_le_one (by norm_num)).mpr h2,
    div_nonneg h3 (by norm_num), (div_le_one (by norm_num)).mpr h4,
    div_nonneg h5 (by norm_num), (div_le_one (by norm_num)).mpr h6,
    div_nonneg h7 (by norm_num), (div_le_one (by norm_num)).mpr h8⟩

/-- C1: a record whose raw coordinates lie within the pitch bounds
`[0, 105] × [0, 68]` is mapped by the normalizer (division of every
`start_x` / `end_x` by 105 and every `start_y` / `end_y` by 68, in all
three action slots) to a record all of whose coordinate fields lie in
`[0, 1]`. -/
theorem normalize_maps_bounds_to_unit (r : ShotRecord)
    (h : rawInBounds r.action ∧ rawInBounds r.action1 ∧ rawInBounds r.action2) :
    normInBounds (normalize r).action ∧ normInBounds (normalize r).action1 ∧
      normInBounds (normalize r).action2 :=
  ⟨normalizeAction_bounds _ h.1, normalizeAction_bounds _ h.2.1,
    normalizeAction_bounds _ h.2.2⟩

theorem normalize_maps_bounds_to_unit_witness :
    (rawInBounds sampleRecord.action ∧ rawInBounds sampleRecord.action1 ∧
      rawInBounds sampleRecord.action2) ∧
    (normInBounds (normalize sampleRecord).action ∧
      normInBounds (normalize sampleRecord).action1 ∧
      normInBounds (normalize sampleRecord).action2) :=
  ⟨by decide, normalize_maps_bounds_to_unit sampleRecord (by decide)⟩

/-- C2: the indicators are defined by equality with the body-part code
(`is_foot = (body_part_id == 0)`, `is_head = (body_part_id == 1)`,
`is_other = (body_part_id == 2)`); exactly one of them is true exactly
when the code is 0, 1 or 2, and all three are false exactly when the
code lies outside `{0, 1, 2}`. -/
theorem body_part_indicators_spec (a : ShotAction) :
    (is_foot a = (a.body_part_id == 0) ∧ is_head a = (a.body_part_id == 1) ∧
      is_other a = (a.body_part_id == 2)) ∧
    (([is_foot a, is_head a, is_other a].count true = 1) ↔
      (a.body_part_id = 0 ∨ a.body_part_id = 1 ∨ a.body_part_id = 2)) ∧
    ((is_foot a = false ∧ is_head a = false ∧ is_other a = false) ↔
      ¬(a.body_part_id = 0 ∨ a.body_part_id = 1 ∨ a.body_part_id = 2)) := by
  refine ⟨⟨rfl, rfl, rfl⟩, ?_, ?_⟩ <;>
  · by_cases h0 : a.body_part_id = 0 <;> by_cases h1 : a.body_part_id = 1 <;>
      by_cases h2 : a.body_part_id = 2 <;>
      first
        | omega
        | simp [is_foot, is_head, is_other, h0, h1, h2, List.count_cons]

/-- C6: the normalizer is not idempotent: on any record whose shot
`start_x` is nonzero, applying it twice differs from applying it
once. -/
theorem normalize_not_idempotent (r : ShotRecord) (h : r.action.start_x ≠ 0) :
    normalize (normalize r) ≠ normalize r := by
  intro heq
  have hx : r.action.start_x / 105 / 105 = r.action.start_x / 105 := by
    have h2 := congrArg (fun s => s.action.start_x) heq
    simpa [normalize, normalizeAction] using h2
  apply h
  field_simp at hx
  linarith [hx]

theorem normalize_not_idempotent_witness :
    sampleRecord.action.start_x ≠ 0 ∧
      normalize (normalize sampleRecord) ≠ normalize sampleRecord :=
  ⟨by decide, normalize_not_idempotent sampleRecord (by decide)⟩

/-- C3: the start-to-goal feature is the exact Euclidean distance
`sqrt((1 - start_x)^2 + (1/2 - start_y)^2)` to the fixed goal center
`(1, 1/2)`; it is `0` at `(1, 1/2)`, `1` at `(0, 1/2)`, and equals
`sqrt(1.25) ≈ 1.118` at `(0, 0)`. -/
theorem start_distance_spec :
    (∀ a : ShotAction, startDistance a =
      Real.sqrt ((1 - (a.start_x : ℝ)) ^ 2 + (1/2 - (a.start_y : ℝ)) ^ 2)) ∧
    startDistance ⟨0, 0, 1, 1/2, 0, 0⟩ = 0 ∧
    startDistance ⟨0, 0, 0, 1/2, 0, 0⟩ = 1 ∧
    startDistance ⟨0, 0, 0, 0, 0, 0⟩ = Real.sqrt 1.25 ∧
    1.118 < startDistance ⟨0, 0, 0, 0, 0, 0⟩ ∧
    startDistance ⟨0, 0, 0, 0, 0, 0⟩ < 1.119 := by
  have hgen : ∀ a : ShotAction, startDistance a =
      Real.sqrt ((1 - (a.start_x : ℝ)) ^ 2 + (1/2 - (a.start_y : ℝ)) ^ 2) := by
    intro a
    simp only [startDistance, euclidean, goal]
    congr 1
    ring
  have h125 : startDistance ⟨0, 0, 0, 0, 0, 0⟩ = Real.sqrt 1.25 := by
    rw [hgen]
    congr 1
    push_cast
    norm_num
  refine ⟨hgen, ?_, ?_, h125, ?_, ?_⟩
  · rw [hgen]
    push_cast
    norm_num
  · rw [hgen]
    push_cast
    norm_num
  · rw [h125]
    exact (Real.lt_sqrt (by norm_num)).mpr (by norm_num)
  · rw [h125]
    exact (Real.sqrt_lt' (by norm_num)).mpr (by norm_num)

/-- C7 counterexample: the normalization stage overwrites a previously
loaded source-data value: the loaded shot `start_x` of the concrete row
`sampleRecord` is 52, but after cell 13 the column holds 52/105. -/
theorem normalize_overwrites_loaded_value :
    (normalize sampleRecord).action.start_x ≠ sampleRecord.action.start_x := by
  simp only [normalize, normalizeAction, sampleRecord]
  norm_num

/-- C7 amended: the normalization stage overwrites the coordinate
columns in place, but every later pipeline stage (distance computation,
indicator construction, column selection) only adds new columns or reads
existing ones: the augmented table restricted to the previously existing
columns equals the table those stages were given. -/
theorem later_stages_preserve_existing_columns :
    (∀ r : ShotRecord, (addFeatures r).base = r) ∧
    (∀ df : List ShotRecord,
      ((normalizeDF df).map addFeatures).map AugRecord.base = normalizeDF df) := by
  refine ⟨fun r => rfl, fun df => ?_⟩
  rw [List.map_map]
  have hcomp : AugRecord.base ∘ addFeatures = id := rfl
  rw [hcomp, List.map_id]

/-- C8 counterexample: at a concrete record whose shot `start_x = 200`
lies outside the pitch bounds, cell 13 emits no data-quality warning at
all (its observable log output is empty), contradicting the claim that
the out-of-range condition is logged. -/
theorem oob_normalization_logs_nothing :
    ¬ rawInBounds oobRecord.action ∧ (normalizeRun oobRecord).2 = [] :=
  ⟨by decide, rfl⟩

/-- C8 amended: out-of-range coordinates are not fatal: cell 13 still
proceeds arithmetically, applying the same divisions by 105 and 68 and
producing a result; the out-of-range condition is neither logged nor
raised (the cell performs no range check). -/
theorem oob_normalization_proceeds (r : ShotRecord)
    (h : ¬ (rawInBounds r.action ∧ rawInBounds r.action1 ∧ rawInBounds r.action2)) :
    normalizeRun r = (normalize r, []) ∧
    (normalize r).action.start_x = r.action.start_x / 105 ∧
    (normalize r).action.start_y = r.action.start_y / 68 ∧
    (normalize r).action.end_x = r.action.end_x / 105 ∧
    (normalize r).action.end_y = r.action.end_y / 68 :=
  ⟨rfl, rfl, rfl, rfl, rfl⟩

theorem oob_normalization_proceeds_witness :
    (¬ (rawInBounds oobRecord.action ∧ rawInBounds oobRecord.action1 ∧
        rawInBounds oobRecord.action2)) ∧
    (normalizeRun oobRecord = (normalize oobRecord, []) ∧
      (normalize oobRecord).action.start_x = oobRecord.action.start_x / 105 ∧
      (normalize oobRecord).action.start_y = oobRecord.action.start_y / 68 ∧
      (normalize oobRecord).action.end_x = oobRecord.action.end_x / 105 ∧
      (normalize oobRecord).action.end_y = oobRecord.action.end_y / 68) :=
  ⟨by decide, oob_normalization_proceeds oobRecord (by decide)⟩

/-- C5 counterexample: on the 1000-shot training labels with goal rate
0.10 (`trainScenario`), the baseline computed by cell 36 is 1/10, while
0.10 × (positives in train / train size) is 1/100, so the baseline does
not equal the latter. -/
theorem baseline_not_tenth_of_ratio :
    auc_pr_baseline trainScenario ≠
      (1/10 : ℚ) * ((trainScenario.count 1 : ℚ) / (trainScenario.length : ℚ)) := by
  have hsum : trainScenario.sum = 100 := by
    rw [trainScenario, List.sum_append, List.sum_replicate, List.sum_replicate]
    norm_num
  have hlen : trainScenario.length = 1000 := by
    rw [trainScenario, List.length_append, List.length_replicate, List.length_replicate]
  have hcount : trainScenario.count 1 = 100 := by
    rw [trainScenario, List.count_append, List.count_replicate, List.count_replicate]
    norm_num
  rw [auc_pr_baseline, y_positive, y_total, hsum, hlen, hcount]
  norm_num

lemma sum_eq_count_one (y : List ℤ) (h : ∀ l ∈ y, l = 0 ∨ l = 1) :
    y.sum = (y.count 1 : ℤ) := by
  induction y with
  | nil => simp
  | cons a t ih =>
    have ha := h a (List.mem_cons_self a t)
    have ht : ∀ l ∈ t, l = 0 ∨ l = 1 := fun l hl => h l (List.mem_cons_of_mem a hl)
    have iht := ih ht
    rcases ha with h0 | h0 <;> subst h0 <;> simp [List.count_cons] <;> omega

/-- C5 amended: the baseline AUC-PR computed by cell 36 equals the
positive-class ratio in the training set (number of positive training
labels divided by the training-set size), for any 0/1 label vector. -/
theorem baseline_is_positive_ratio (y : List ℤ) (h : ∀ l ∈ y, l = 0 ∨ l = 1) :
    auc_pr_baseline y = (y.count 1 : ℚ) / (y.length : ℚ) := by
  rw [auc_pr_baseline, y_positive, y_total, sum_eq_count_one y h]
  push_cast
  ring

theorem baseline_is_positive_ratio_witness :
    (∀ l ∈ smallTrain, l = 0 ∨ l = 1) ∧
    auc_pr_baseline smallTrain = (smallTrain.count 1 : ℚ) / (smallTrain.length : ℚ) :=
  ⟨by decide, baseline_is_positive_ratio smallTrain (by decide)⟩

lemma featureRow_ends_irrelevant (r r' : ShotRecord) (h : agreeExceptEnds r r') :
    selectFeatures (addFeatures (normalize r)) =
      selectFeatures (addFeatures (normalize r')) ∧
    selectLabel (normalize r) = selectLabel (normalize r') := by
  obtain ⟨⟨hb, hres, hx, hy⟩, ⟨hb1, hres1, hx1, hy1⟩, ⟨hb2, hres2, hx2, hy2⟩⟩ := h
  constructor
  · simp only [selectFeatures, addFeatures, slotFeatures, normalize, normalizeAction,
      startDistance, euclidean, is_foot, is_head]
    rw [hb, hx, hy, hx1, hy1, hx2, hy2]
  · simp only [selectLabel, normalize, normalizeAction]
    rw [hres]

/-- C9: the feature matrix `X` and label vector `y` depend only on the
start coordinates, body-part codes and result flags: two datasets that
agree on every loaded column except the `end_x` / `end_y` coordinates of
the three slots produce identical `X` and `y`. -/
theorem features_ignore_end_coordinates (df df' : List ShotRecord)
    (h : List.Forall₂ agreeExceptEnds df df') :
    pipelineX df = pipelineX df' ∧ pipelineY df = pipelineY df' := by
  induction h with
  | nil => exact ⟨rfl, rfl⟩
  | cons hrel htail ih =>
    obtain ⟨hfeat, hlab⟩ := featureRow_ends_irrelevant _ _ hrel
    constructor
    · simp only [pipelineX, normalizeDF, List.map_cons, List.cons.injEq]
      exact ⟨hfeat, ih.1⟩
    · simp only [pipelineY, normalizeDF, List.map_cons, List.cons.injEq]
      exact ⟨hlab, ih.2⟩

theorem features_ignore_end_coordinates_witness :
    List.Forall₂ agreeExceptEnds [sampleRecord] [sampleRecordEnds] ∧
    (pipelineX [sampleRecord] = pipelineX [sampleRecordEnds] ∧
      pipelineY [sampleRecord] = pipelineY [sampleRecordEnds]) :=
  ⟨List.Forall₂.cons (by decide) List.Forall₂.nil,
    features_ignore_end_coordinates _ _
      (List.Forall₂.cons (by decide) List.Forall₂.nil)⟩

/-- C10: the selected feature columns carry only the `action_is_foot`
and `action_is_head` indicators, so a shot with `body_part_id = 2` has
both selected indicators false and produces exactly the same feature row
as the same shot with any body-part code outside `{0, 1, 2}`. -/
theorem other_code_indistinguishable_from_invalid (r : ShotRecord) (c : ℤ)
    (h2 : r.action.body_part_id = 2) (hc : ¬ (c = 0 ∨ c = 1 ∨ c = 2)) :
    selectFeatures (addFeatures (normalize r)) =
      selectFeatures (addFeatures (normalize (setBodyPart r c))) ∧
    (selectFeatures (addFeatures (normalize r))).action_is_foot = false ∧
    (selectFeatures (addFeatures (normalize r))).action_is_head = false := by
  push_neg at hc
  obtain ⟨hc0, hc1, hc2⟩ := hc
  refine ⟨?_, ?_, ?_⟩
  · simp only [selectFeatures, addFeatures, slotFeatures, normalize, normalizeAction,
      setBodyPart, is_foot, is_head, startDistance, euclidean, FeatureVector.mk.injEq]
    simp [h2, hc0, hc1]
  · simp [selectFeatures, addFeatures, slotFeatures, normalize, normalizeAction,
      is_foot, h2]
  · simp [selectFeatures, addFeatures, slotFeatures, normalize, normalizeAction,
      is_head, h2]

lemma selectRows_cons (rows : List α) (i : ℕ) (t : List ℕ) (hi : i < rows.length) :
    selectRows rows (i :: t) = rows[i] :: selectRows rows t := by
  simp [selectRows, List.getElem?_eq_getElem hi]

lemma selectRows_length (rows : List α) (idx : List ℕ)
    (h : ∀ i ∈ idx, i < rows.length) :
    (selectRows rows idx).length = idx.length := by
  induction idx with
  | nil => rfl
  | cons i t ih =>
    have hi : i < rows.length := h i (List.mem_cons_self i t)
    have ht : ∀ j ∈ t, j < rows.length := fun j hj => h j (List.mem_cons_of_mem i hj)
    rw [selectRows_cons rows i t hi, List.length_cons, ih ht, List.length_cons]

lemma selectRows_zip (X : List α) (y : List β) (idx : List ℕ)
    (hlen : X.length = y.length) (h : ∀ i ∈ idx, i < X.length) :
    selectRows (X.zip y) idx = (selectRows X idx).zip (selectRows y idx) := by
  induction idx with
  | nil => rfl
  | cons i t ih =>
    have hi : i < X.length := h i (List.mem_cons_self i t)
    have hiy : i < y.length := hlen ▸ hi
    have hiz : i < (X.zip y).length := by
      rw [List.length_zip]
      omega
    have ht : ∀ j ∈ t, j < X.length := fun j hj => h j (List.mem_cons_of_mem i hj)
    rw [selectRows_cons _ i t hiz, selectRows_cons _ i t hi,
      selectRows_cons _ i t hiy, ih ht, List.zip_cons_cons, List.getElem_zip]

/-- C4: for any feature rows `X` and labels `y` of common length `N` and
any shuffled index order (a permutation of `0..N-1`), the split
partitions the rows: the train and test row counts sum to `N`, no index
lies in both partitions, the row-for-row correspondence between `X` and
`y` is preserved inside each partition (splitting the zipped rows equals
zipping the split parts), and for `N = 100` with `test_size = 0.10` the
test partition has exactly 10 rows. -/
theorem split_partition_properties {α β : Type} (N : ℕ) (X : List α)
    (y : List β) (idx : List ℕ) (hX : X.length = N) (hy : y.length = N)
    (hperm : idx.Perm (List.range N)) :
    ((trainTestSplit X y idx (1/10)).1.1.length +
        (trainTestSplit X y idx (1/10)).1.2.length = N) ∧
    (∀ i ∈ idx.take (testSize N (1/10)), i ∉ idx.drop (testSize N (1/10))) ∧
    ((trainTestSplit X y idx (1/10)).1.1.zip (trainTestSplit X y idx (1/10)).2.1
        = selectRows (X.zip y) (idx.drop (testSize N (1/10)))) ∧
    ((trainTestSplit X y idx (1/10)).1.2.zip (trainTestSplit X y idx (1/10)).2.2
        = selectRows (X.zip y) (idx.take (testSize N (1/10)))) ∧
    (N = 100 → (trainTestSplit X y idx (1/10)).1.2.length = 10) := by
  have hidxlen : idx.length = N := hperm.length_eq.trans (List.length_range N)
  have hmem : ∀ i ∈ idx, i < N := fun i hi =>
    List.mem_range.mp (hperm.mem_iff.mp hi)
  have hnodup : idx.Nodup := hperm.nodup_iff.mpr (List.nodup_range N)
  have hsplit : trainTestSplit X y idx (1/10) =
      ((selectRows X (idx.drop (testSize N (1/10))),
        selectRows X (idx.take (testSize N (1/10)))),
       (selectRows y (idx.drop (testSize N (1/10))),
        selectRows y (idx.take (testSize N (1/10))))) := by
    rw [trainTestSplit, hX]
  have hmemTake : ∀ i ∈ idx.take (testSize N (1/10)), i < X.length :=
    fun i hi => hX ▸ hmem i (List.mem_of_mem_take hi)
  have hmemDrop : ∀ i ∈ idx.drop (testSize N (1/10)), i < X.length :=
    fun i hi => hX ▸ hmem i (List.mem_of_mem_drop hi)
  have hlenXY : X.length = y.length := by rw [hX, hy]
  refine ⟨?_, ?_, ?_, ?_, ?_⟩
  · rw [hsplit]
    simp only
    rw [selectRows_length X _ hmemDrop, selectRows_length X _ hmemTake,
      List.length_drop, List.length_take]
    omega
  · exact fun i hi => List.disjoint_take_drop hnodup le_rfl hi
  · rw [hsplit]
    simp only
    rw [selectRows_zip X y _ hlenXY hmemDrop]
  · rw [hsplit]
    simp only
    rw [selectRows_zip X y _ hlenXY hmemTake]
  · intro h100
    rw [hsplit]
    simp only
    rw [selectRows_length X _ hmemTake, List.length_take, hidxlen, h100]
    have h10 : testSize 100 (1/10) = 10 := by
      rw [testSize]
      norm_num
    rw [h10]
    omega

theorem split_partition_properties_witness :
    ((trainTestSplit rows100 rows100 rows100 (1/10)).1.1.length +
        (trainTestSplit rows100 rows100 rows100 (1/10)).1.2.length = 100) ∧
    (∀ i ∈ rows100.take (testSize 100 (1/10)),
        i ∉ rows100.drop (testSize 100 (1/10))) ∧
    ((trainTestSplit rows100 rows100 rows100 (1/10)).1.1.zip
          (trainTestSplit rows100 rows100 rows100 (1/10)).2.1
        = selectRows (rows100.zip rows100)
            (rows100.drop (testSize 100 (1/10)))) ∧
    ((trainTestSplit rows100 rows100 rows100 (1/10)).1.2.zip
          (trainTestSplit rows100 rows100 rows100 (1/10)).2.2
        = selectRows (rows100.zip rows100)
            (rows100.take (testSize 100 (1/10)))) ∧
    (100 = 100 → (trainTestSplit rows100 rows100 rows100 (1/10)).1.2.length = 10) :=
  split_partition_properties 100 rows100 rows100 rows100
    (by simp [rows100]) (by simp [rows100]) (List.Perm.refl _)

theorem other_code_indistinguishable_witness :
    (bp2Record.action.body_part_id = 2 ∧ ¬ ((7:ℤ) = 0 ∨ (7:ℤ) = 1 ∨ (7:ℤ) = 2)) ∧
    (selectFeatures (addFeatures (normalize bp2Record)) =
        selectFeatures (addFeatures (normalize (setBodyPart bp2Record 7))) ∧
      (selectFeatures (addFeatures (normalize bp2Record))).action_is_foot = false ∧
      (selectFeatures (addFeatures (normalize bp2Record))).action_is_head = false) :=
  ⟨⟨by decide, by decide⟩,
    other_code_indistinguishable_from_invalid bp2Record 7 (by decide) (by decide)⟩

end Shots
